import Mathlib

/-!
Verification development for the VAMP repository (Chrome extension +
scoring pipeline).  The definitions below are shallow embeddings of the
JavaScript functions in `frontend/extension/popup.js` and
`frontend/extension/content-script.js`, together with a model of the
backend scoring/aggregation pipeline (`backend/nwu_brain/scoring.py` and
the evidence store), which is described by the specification but whose
source is not part of this repository snapshot.

Conventions used by the embedding:
* JavaScript numbers are modelled as `ℚ` (scores, confidences) or `Nat`
  (timestamps in epoch milliseconds, counters).
* A JavaScript value that may be `undefined`/`null`/`NaN` is modelled as
  an `Option`; `none` stands for the absent (or non-finite) case.
* JavaScript truthiness on numbers (`0`/`NaN` falsy) and on strings
  (`""` falsy) is modelled explicitly where the code relies on it.
* DOM access is abstracted: a scraped page is a value carrying the text
  the selectors would have produced; the control flow of the scrapers is
  embedded faithfully over those inputs.
-/

/-! ## String primitives

JavaScript string operations are embedded at the level of character
lists (`String.data`), mirroring the code-unit semantics of the
JavaScript operators; for the ASCII data handled by this program the
two views agree. -/

/-- Lexicographic `a <= b` on character lists by code point — the order
behind JavaScript's `<`/`>` on strings. -/
def charListLE : List Char → List Char → Bool
  | [], _ => true
  | _ :: _, [] => false
  | a :: as, b :: bs =>
    if a.toNat < b.toNat then true
    else if b.toNat < a.toNat then false
    else charListLE as bs

/-- JavaScript `a <= b` on strings. -/
def strLE (a b : String) : Bool := charListLE a.data b.data

/-- JavaScript `String.prototype.toLowerCase` (ASCII range). -/
def jsToLower (s : String) : String := String.mk (s.data.map Char.toLower)

/-- JavaScript `String.prototype.endsWith`. -/
def jsEndsWith (s pat : String) : Bool := pat.data.isSuffixOf s.data

/-- JavaScript `String.prototype.startsWith`. -/
def jsStartsWith (s pat : String) : Bool := pat.data.isPrefixOf s.data

/-! ## popup.js : score classification (`getScoreClass`, lines 1617-1622) -/

/-- Embedding of `getScoreClass(score)` from `popup.js`:
`if (!score) return ''; if (score >= 4) return 'score-high';
if (score >= 2.5) return 'score-medium'; return 'score-low';`.
For a (non-NaN) numeric argument, `!score` holds exactly when the score
is `0`. -/
def getScoreClass (score : ℚ) : String :=
  if score = 0 then ""
  else if 4 ≤ score then "score-high"
  else if 5/2 ≤ score then "score-medium"
  else "score-low"

/-- Transcription of the specification's band table (§4.4): score ∈ [0, 1) →
"Emerging"; [1, 2.5) → "Developing"; [2.5, 4) → "Proficient"; [4, ∞) →
"Transformational".  This definition follows the spec's words, for
comparison against `getScoreClass`. -/
def specBand (s : ℚ) : String :=
  if s < 1 then "Emerging"
  else if s < 5/2 then "Developing"
  else if s < 4 then "Proficient"
  else "Transformational"

/-! ## popup.js : timestamp confidence (`describeTimestamp`, lines 1365-1393) -/

/-- Input to `describeTimestamp`, restricted to the fields its confidence
computation reads.  `timestamp_confidence` is `some c` when
`Number(item.timestamp_confidence)` is a finite number `c`, and `none`
when it is `NaN` (absent field or non-numeric value). -/
structure TimestampItem where
  timestamp_confidence : Option ℚ
  timestamp_estimated : Bool

/-- Result of the confidence computation inside `describeTimestamp`.  The
date formatting and HTML chip assembly of the source function are
display-only and are not modelled. -/
structure TimestampBadge where
  confidence : ℚ
  confidencePercent : ℤ
  chipClass : String
  estimated : Bool

/-- Embedding of the confidence computation of `describeTimestamp(item)`:
`let confidence = Number(item.timestamp_confidence);
if (!Number.isFinite(confidence)) confidence = estimated ? 0.5 : 0.92;
confidence = Math.max(0, Math.min(1, confidence));
const confidencePercent = Math.round(confidence * 100);`
together with `chipClass = estimated ? 'estimated' : 'exact'`. -/
def describeTimestamp (item : TimestampItem) : TimestampBadge :=
  let estimated := item.timestamp_estimated
  let c0 : ℚ :=
    match item.timestamp_confidence with
    | some c => c
    | none => if estimated then 1/2 else 92/100
  let confidence := max 0 (min 1 c0)
  { confidence := confidence
    confidencePercent := round (confidence * 100)
    chipClass := if estimated then "estimated" else "exact"
    estimated := estimated }

/-! ## popup.js : average score (`calculateAverageScore`, lines 1550-1555) -/

/-- An evidence row as displayed by the popup table.  Fields mirror the
loosely-shaped JSON items: optional numeric timestamps (epoch ms) for
`date`/`modified`/`timestamp`, an optional numeric `score`, a `source`
tag, and an optional `kpa` that may be a string or an array of strings. -/
structure EvidenceRow where
  title : String
  date : Option Nat
  modified : Option Nat
  timestamp : Option Nat
  score : Option ℚ
  source : String
  kpa : Option (List String ⊕ String)

/-- JavaScript truthiness of the `score` field: `undefined`/`null`
(`none`) and `0` are falsy; every other number is truthy. -/
def truthyScore : Option ℚ → Bool
  | none => false
  | some s => if s = 0 then false else true

/-- The list of truthy scores of `evidence`, as built by
`evidence.filter(item => item.score).map(item => item.score)`. -/
def truthyScores (evidence : List EvidenceRow) : List ℚ :=
  (evidence.filter (fun item => truthyScore item.score)).map
    (fun item => item.score.getD 0)

/-- Embedding of `calculateAverageScore(evidence)`: returns `none` for the
string result `'N/A'` (empty truthy-score list) and `some` of the exact
arithmetic mean otherwise.  The source formats the mean with
`.toFixed(1)` for display; the formatting step is not modelled. -/
def calculateAverageScore (evidence : List EvidenceRow) : Option ℚ :=
  if (truthyScores evidence).length = 0 then none
  else some ((truthyScores evidence).sum / ((truthyScores evidence).length : ℚ))

/-! ## popup.js : bounded histories (lines 1293-1311, 1350-1357, 1417-1443) -/

/-- Keep the last `limit` elements of `l`: embedding of
`if (l.length > limit) l.splice(0, l.length - limit)`. -/
def truncKeepLast (limit : Nat) (l : List α) : List α :=
  if l.length > limit then l.drop (l.length - limit) else l

/-- `chatState.maxEntries` in `popup.js` (line 1083). -/
def chatMaxEntries : Nat := 40

/-- `TOOL_EVENT_LIMIT` in `popup.js` (line 1086). -/
def toolEventLimit : Nat := 30

/-- A chat history entry, as built by `addChatMessage`. -/
structure ChatEntry where
  role : String
  content : String
  context : String
  label : String
  contextLabel : String
  ts : Nat

/-- `labelMap[role] || role` with
`labelMap = { user: 'You', assistant: 'VAMP', system: 'System' }`. -/
def chatLabelFor (role : String) : String :=
  if role = "user" then "You"
  else if role = "assistant" then "VAMP"
  else if role = "system" then "System"
  else role

/-- `context === 'brain' ? 'Brain Scan' : context === 'ask' ? 'Ask VAMP' : context`. -/
def chatContextLabelFor (context : String) : String :=
  if context = "brain" then "Brain Scan"
  else if context = "ask" then "Ask VAMP"
  else context

/-- The entry object pushed by `addChatMessage`. -/
def mkChatEntry (role content context : String) (now : Nat) : ChatEntry :=
  { role := role
    content := content
    context := context
    label := chatLabelFor role
    contextLabel := chatContextLabelFor context
    ts := now }

/-- Embedding of `addChatMessage(role, content, context)` acting on
`chatState.entries`: guard `if (!content) return;`, push the new entry,
then truncate to the newest `maxEntries` (40) entries. -/
def addChatMessage (entries : List ChatEntry) (role content context : String)
    (now : Nat) : List ChatEntry :=
  if content = "" then entries
  else truncKeepLast chatMaxEntries (entries ++ [mkChatEntry role content context now])

/-- An entry of the `askConversation` list. -/
structure AskMessage where
  role : String
  content : String

/-- Embedding of `recordAskMessage(role, content)`: guards
`if (!content) return;` and `if (!['user','assistant'].includes(role)) return;`,
push, then truncate to the newest 20 entries. -/
def recordAskMessage (conv : List AskMessage) (role content : String) :
    List AskMessage :=
  if content = "" then conv
  else if role = "user" ∨ role = "assistant" then
    truncKeepLast 20 (conv ++ [⟨role, content⟩])
  else conv

/-- The raw tool object received by `recordToolFeedback`; every field the
code reads is optional (`none` models an absent/nullish field, and for
the numeric fields also a value whose `Number(...)` coercion is `NaN`). -/
structure ToolInput where
  tool : Option String
  action : Option String
  status : Option String
  error : Option String
  reason : Option String
  summary : Option String
  items_found : Option ℚ
  count : Option ℚ
  total_month_items : Option ℚ
  total : Option ℚ

/-- A recorded tool event (the entry pushed onto `toolEvents`). -/
structure ToolEvent where
  tool : String
  status : String
  items : ℚ
  total : ℚ
  note : String
  origin : String
  ts : Nat

/-- JavaScript `a || b` on an optional string `a` with default `b`
(the empty string is falsy). -/
def jsOrStr : Option String → String → String
  | some s, d => if s = "" then d else s
  | none, d => d

/-- The entry built for one tool object inside `recordToolFeedback`:
`tool: (tool.tool || tool.action || 'unknown')`,
`status: (tool.status || 'info').toLowerCase()`,
`items: Number(tool.items_found ?? tool.count ?? 0) || 0`,
`total: Number(tool.total_month_items ?? tool.total ?? 0) || 0`,
`note: (tool.error || tool.reason || tool.summary || '')`. -/
def mkToolEntry (origin : String) (now : Nat) (t : ToolInput) : ToolEvent :=
  { tool := jsOrStr t.tool (jsOrStr t.action "unknown")
    status := jsToLower (jsOrStr t.status "info")
    items := (t.items_found.orElse (fun _ => t.count)).getD 0
    total := (t.total_month_items.orElse (fun _ => t.total)).getD 0
    note := jsOrStr t.error (jsOrStr t.reason (jsOrStr t.summary ""))
    origin := origin
    ts := now }

/-- Embedding of `recordToolFeedback(tools, origin)` acting on
`toolEvents`: the guard `if (!Array.isArray(tools) || !tools.length)`
returns the list unchanged; otherwise every element that is a non-null
object (`some`) is converted and pushed, then the list is truncated to
the newest `TOOL_EVENT_LIMIT` (30) entries. -/
def recordToolFeedback (events : List ToolEvent) (tools : List (Option ToolInput))
    (origin : String) (now : Nat) : List ToolEvent :=
  if tools.isEmpty then events
  else truncKeepLast toolEventLimit
    (events ++ tools.filterMap (fun t => t.map (mkToolEntry origin now)))

/-! ## popup.js : year-doc extraction and table sorting
(`extractEvidenceFromYearDoc`, lines 2175-2186; `sortEvidence`, lines
1557-1596; the display path `updateEvidenceDisplay` sorts with
`currentSort`, whose initial value is `{ column: 'title', direction: 'asc' }`,
line 1082). -/

/-- A per-user year document: `months` maps month keys to month records
whose `items` array may be absent.  `Object.values` enumerates the
months in insertion order, modelled by the list order. -/
structure YearDoc where
  months : Option (List (String × Option (List EvidenceRow)))

/-- Embedding of `extractEvidenceFromYearDoc(yearDoc)`: returns `[]` when
`yearDoc.months` is falsy, otherwise concatenates every month's `items`
array (skipping months without an array) in month order.  No sorting is
performed here. -/
def extractEvidenceFromYearDoc (yd : YearDoc) : List EvidenceRow :=
  match yd.months with
  | none => []
  | some ms =>
    ms.foldl (fun acc m =>
      match m.2 with
      | some items => acc ++ items
      | none => acc) []

/-- JavaScript `a || b` on an optional `Nat` (a zero value is falsy and
falls through to `b`), as in `a.date || a.modified || a.timestamp || 0`. -/
def jsOrNat : Option Nat → Option Nat → Option Nat
  | some v, b => if v = 0 then b else some v
  | none, b => b

/-- The date key used by `sortEvidence` for the `date` column:
`new Date(a.date || a.modified || a.timestamp || 0)` compared
numerically (epoch milliseconds). -/
def effectiveDate (a : EvidenceRow) : Nat :=
  (jsOrNat a.date (jsOrNat a.modified a.timestamp)).getD 0

/-- Embedding of `String.prototype.replace(pat, '')` with a plain-string
pattern: removes the first occurrence of `pat` only. -/
def replaceFirst (s pat : String) : String :=
  match s.splitOn pat with
  | [] => s
  | h :: t => if t = [] then h else h ++ String.intercalate pat t

/-- Embedding of `getKPADisplay(kpa)` (popup.js lines 1609-1615): falsy →
`'-'`; an array maps each element through `.replace('KPA','')` and joins
with `','`; otherwise the single string with `'KPA'` removed. -/
def getKPADisplay : Option (List String ⊕ String) → String
  | none => "-"
  | some (.inl ks) => String.intercalate "," (ks.map (fun k => replaceFirst k "KPA"))
  | some (.inr s) => replaceFirst s "KPA"

/-- Embedding of `getEvidenceTypeIcon(source)` (popup.js lines 261-270). -/
def getEvidenceTypeIcon (source : String) : String :=
  if source = "outlook" then "📧"
  else if source = "onedrive" then "📁"
  else if source = "gdrive" then "☁️"
  else if source = "efundi" then "🎓"
  else if source = "web" then "🌐"
  else "📄"

/-- The per-column `aVal <= bVal` relation of the `sortEvidence`
comparator, as a boolean.  For an unrecognised column the comparator
always returns `0`; that branch is represented by `true` (see
`sortEvidence`, which keeps the list unchanged in that case). -/
def colLE (column : String) (a b : EvidenceRow) : Bool :=
  if column = "title" then strLE a.title b.title
  else if column = "date" then decide (effectiveDate a ≤ effectiveDate b)
  else if column = "kpa" then strLE (getKPADisplay a.kpa) (getKPADisplay b.kpa)
  else if column = "score" then decide (a.score.getD 0 ≤ b.score.getD 0)
  else if column = "source" then strLE a.source b.source
  else if column = "type" then
    strLE (getEvidenceTypeIcon a.source) (getEvidenceTypeIcon b.source)
  else true

/-- Embedding of `sortEvidence(evidence, column, direction)`: a stable
sort of a copy of `evidence` consistent with the three-way comparator
(`aVal < bVal ? -1 : aVal > bVal ? 1 : 0`, flipped unless
`direction === 'asc'`).  A list is sorted by that comparator exactly
when consecutive keys satisfy `colLE` (resp. its flip), which
`List.insertionSort` produces.  For an unrecognised column every
comparison returns `0` and a stable sort leaves the order unchanged;
`colLE` is constantly `true` there and `insertionSort` is then the
identity as well. -/
def sortEvidence (evidence : List EvidenceRow) (column direction : String) :
    List EvidenceRow :=
  if direction = "asc" then
    evidence.insertionSort (fun a b => colLE column a b = true)
  else
    evidence.insertionSort (fun a b => colLE column b a = true)

/-! ## content-script.js : DOM preview scrapers (lines 14-258)

The DOM is abstracted: a `PageState` carries, for each scraper, the text
each selector would have produced (`safeText` results).  The scraper
control flow — guards, dedup, caps — is embedded faithfully over those
inputs.  `gentleScrollToBottom` only nudges virtualised lists and has no
effect on the model's inputs. -/

/-- Embedding of `cappedPush(arr, obj, cap)` (content-script.js lines
30-32): append only while strictly below the cap. -/
def cappedPush (arr : List α) (obj : α) (cap : Nat) : List α :=
  if arr.length < cap then arr ++ [obj] else arr

/-- Boolean infix test on lists (the substring test behind JavaScript's
`String.prototype.includes`). -/
def isInfixB [BEq α] : List α → List α → Bool
  | pat, [] => pat.isEmpty
  | pat, c :: rest => pat.isPrefixOf (c :: rest) || isInfixB pat rest

/-- `s.includes(pat)` for strings. -/
def containsSub (s pat : String) : Bool := isInfixB pat.data s.data

/-- One Outlook message-list row, abstracted from the DOM: `subjectText`
is the `safeText` of the `[data-automationid="Subject"], [role="heading"]`
element when present, `ariaLabel` the `aria-label` attribute (`none`
when absent), `rowText` the row's own `safeText`, the four `data-*`
fields the row's conversation/item id attributes, and `hasAttachment`
whether a `[data-icon-name="Attach"]` element exists. -/
structure OutlookRow where
  subjectText : Option String
  ariaLabel : Option String
  rowText : String
  dataConvid : Option String
  dataItemId : Option String
  dataConversationId : Option String
  dataConversationid : Option String
  hasAttachment : Bool

/-- A scraped preview item.  `label` is the `subject` field for Outlook
items and the `path` field for OneDrive / Google Drive / eFundi items. -/
structure ScrapedItem where
  source : String
  label : String
  size : Nat

/-- Embedding of `extractSubjectFromAria(ariaText)` (lines 79-97):
split on `','`, trim, return the first part longer than 3 characters
whose lowercase form avoids the status words, else `parts[0] || ""`. -/
def extractSubjectFromAria (ariaText : String) : String :=
  let parts := (ariaText.splitOn ",").map (fun s => s.trim)
  let good := fun (part : String) =>
    let l := jsToLower part
    part.length > 3 &&
    !(jsStartsWith l "unread") && !(jsStartsWith l "read") &&
    !(jsStartsWith l "flagged") && !(jsStartsWith l "not flagged") &&
    !(jsStartsWith l "category") && !(jsStartsWith l "from") &&
    !(containsSub l "preview") && !(containsSub l "message")
  match parts.find? good with
  | some part => part
  | none => jsOrStr parts.head? ""

/-- `(txt.split("\n")[0] || "").trim()` guarded by `if (txt)`. -/
def firstLineTrim (txt : String) : String :=
  if txt = "" then "" else ((txt.splitOn "\n").headD "").trim

/-- The subject extracted for one Outlook row (lines 114-130): the
subject element's text when present, else the parsed `aria-label` when
it is a non-empty string, else the first line of the row text. -/
def outlookSubject (row : OutlookRow) : String :=
  match row.subjectText with
  | some s => s
  | none =>
    match row.ariaLabel with
    | some a => if a = "" then firstLineTrim row.rowText else extractSubjectFromAria a
    | none => firstLineTrim row.rowText

/-- The dedup key of an Outlook row (line 139):
`subject.toLowerCase() + "::" + (data-convid || data-item-id ||
data-conversation-id || data-conversationid || "")`. -/
def outlookKey (row : OutlookRow) (subject : String) : String :=
  jsToLower subject ++ "::" ++
    jsOrStr row.dataConvid (jsOrStr row.dataItemId
      (jsOrStr row.dataConversationId (jsOrStr row.dataConversationid "")))

/-- `MAX_ITEMS` in `scrapeOutlook` (line 105). -/
def outlookMaxItems : Nat := 500

/-- The item pushed for an Outlook row (lines 144-148): the subject with
an `" (attachment)"` suffix when an attachment indicator is present. -/
def mkOutlookItem (row : OutlookRow) : ScrapedItem :=
  { source := "Outlook Office365"
    label :=
      if row.hasAttachment then outlookSubject row ++ " (attachment)"
      else outlookSubject row
    size := 0 }

/-- The inner row loop of `scrapeOutlook` (lines 113-151), threading the
output and the `seenSubjects` set.  The early `break` once the cap is
reached is not modelled: past the cap `cappedPush` no longer changes the
output, so the returned items are identical. -/
def scrapeOutlookRows :
    List OutlookRow → List ScrapedItem × List String → List ScrapedItem × List String
  | [], st => st
  | row :: rest, (out, seen) =>
    if (outlookSubject row).length > 3 then
      if seen.contains (outlookKey row (outlookSubject row)) then
        scrapeOutlookRows rest (out, seen)
      else
        scrapeOutlookRows rest
          (cappedPush out (mkOutlookItem row) outlookMaxItems,
           outlookKey row (outlookSubject row) :: seen)
    else scrapeOutlookRows rest (out, seen)

/-- `(txt.split("\t")[0] || "").trim() || (txt.split("\n")[0] || "").trim()`
(lines 167, 190). -/
def listRowName (txt : String) : String :=
  let t1 := ((txt.splitOn "\t").headD "").trim
  if t1 = "" then ((txt.splitOn "\n").headD "").trim else t1

/-- The shared row loop of `scrapeOneDrive` and `scrapeDrive` (lines
163-176, 186-199): skip rows with empty text or empty extracted name,
`cappedPush` the rest with the given source tag and cap (200). -/
def scrapeListRows (source : String) (cap : Nat) :
    List String → List ScrapedItem → List ScrapedItem
  | [], out => out
  | txt :: rest, out =>
    if txt = "" then scrapeListRows source cap rest out
    else if listRowName txt = "" then scrapeListRows source cap rest out
    else scrapeListRows source cap rest
      (cappedPush out { source := source, label := listRowName txt, size := 0 } cap)

/-- `(txt.split("\n")[0] || "").slice(0, 160).trim()` (line 222). -/
def efundiFirstLine (txt : String) : String :=
  (((txt.splitOn "\n").headD "").take 160).trim

/-- The inner node loop of `scrapeEFundi` (lines 218-231): skip texts
shorter than 5 characters, take the first line sliced to 160 characters
and trimmed, `cappedPush` with cap 300. -/
def scrapeEFundiRows : List String → List ScrapedItem → List ScrapedItem
  | [], out => out
  | txt :: rest, out =>
    if txt = "" || txt.length < 5 then scrapeEFundiRows rest out
    else if efundiFirstLine txt = "" then scrapeEFundiRows rest out
    else scrapeEFundiRows rest
      (cappedPush out { source := "eFundi", label := efundiFirstLine txt, size := 0 } 300)

/-- The abstract state of the current page: its host and the `safeText`
contents the selectors of each scraper would produce (one inner list per
selector for the selector-iterating scrapers). -/
structure PageState where
  host : String
  outlookSelRows : List (List OutlookRow)
  onedriveRows : List String
  driveRows : List String
  efundiSelRows : List (List String)

/-- Embedding of `scrapeOutlook()` (lines 100-155): iterate the Outlook
selectors, dedup by `hashKey`, cap at `MAX_ITEMS` (500). -/
def scrapeOutlook (page : PageState) : List ScrapedItem :=
  (page.outlookSelRows.foldl (fun st rows => scrapeOutlookRows rows st) ([], [])).1

/-- Embedding of `scrapeOneDrive()` (lines 158-178): cap 200. -/
def scrapeOneDrive (page : PageState) : List ScrapedItem :=
  scrapeListRows "OneDrive" 200 page.onedriveRows []

/-- Embedding of `scrapeDrive()` (lines 181-201): cap 200. -/
def scrapeDrive (page : PageState) : List ScrapedItem :=
  scrapeListRows "Google Drive" 200 page.driveRows []

/-- Embedding of `scrapeEFundi()` (lines 204-235): iterate the six
selectors, cap 300. -/
def scrapeEFundi (page : PageState) : List ScrapedItem :=
  page.efundiSelRows.foldl (fun out rows => scrapeEFundiRows rows out) []

/-- `/outlook\.(office|live|office365)\.com$/i.test(host)`: the host,
case-insensitively, ends with one of the three Outlook domains. -/
def isOutlookHost (host : String) : Bool :=
  jsEndsWith (jsToLower host) "outlook.office.com" ||
    jsEndsWith (jsToLower host) "outlook.live.com" ||
    jsEndsWith (jsToLower host) "outlook.office365.com"

/-- `/(\.sharepoint\.com|\.my\.sharepoint\.com|files\.1drv\.com|onedrive\.live\.com)$/i`. -/
def isOneDriveHost (host : String) : Bool :=
  jsEndsWith (jsToLower host) ".sharepoint.com" ||
    jsEndsWith (jsToLower host) ".my.sharepoint.com" ||
    jsEndsWith (jsToLower host) "files.1drv.com" ||
    jsEndsWith (jsToLower host) "onedrive.live.com"

/-- `/drive\.google\.com$/i`. -/
def isDriveHost (host : String) : Bool :=
  jsEndsWith (jsToLower host) "drive.google.com"

/-- `/efundi\.nwu\.ac\.za$/i`. -/
def isEFundiHost (host : String) : Bool :=
  jsEndsWith (jsToLower host) "efundi.nwu.ac.za"

/-- Embedding of `routeScrape()` (lines 238-258): dispatch on the host
patterns in order; any non-matching host yields the empty list.  The
surrounding `try`/`catch` that also maps exceptions to `[]` has no
counterpart here because every modelled operation is total. -/
def routeScrape (page : PageState) : List ScrapedItem :=
  if isOutlookHost page.host then scrapeOutlook page
  else if isOneDriveHost page.host then scrapeOneDrive page
  else if isDriveHost page.host then scrapeDrive page
  else if isEFundiHost page.host then scrapeEFundi page
  else []

/-! ## Backend scoring pipeline (modelled from the spec)

The deterministic scoring pipeline and evidence aggregator live in the
Python backend (`backend/nwu_brain/scoring.py` and the evidence store),
which is not part of this repository snapshot — only its callers,
scripts and documentation are.  The definitions below are modelled from
the specification (§4.1, §4.3, §4.4, §4.6, §4.7). -/

/-- Whitespace characters whose runs the normalizer collapses. -/
def isWSChar (c : Char) : Bool := c = ' ' || c = '\t' || c = '\n' || c = '\r'

/-- Control characters stripped by the normalizer. -/
def isControlChar (c : Char) : Bool := c.toNat < 32 || c.toNat = 127

/-- Collapse runs of whitespace to single spaces; the flag records
whether the previous character was whitespace. -/
def collapseWS : Bool → List Char → List Char
  | _, [] => []
  | prevWS, c :: rest =>
    if isWSChar c then
      if prevWS then collapseWS true rest else ' ' :: collapseWS true rest
    else c :: collapseWS false rest

/-- Modelled from the spec: `normalize(rawText)` (§4.1, implemented in the
missing `backend/nwu_brain/scoring.py`) — lowercases, collapses runs of
whitespace to single spaces, strips control characters, never errors. -/
def VAMP.normalize (raw : String) : String :=
  String.mk ((collapseWS false (raw.data.map Char.toLower)).filter
    (fun c => !isControlChar c))

/-- Modelled from the spec: the `PolicyCorpus` value object (§3) — the
ordered KPA identifiers, the per-KPA keyword packs of
`(keyword_or_phrase, weight)` pairs, and the tier-keyword triggers.  The
policy registry plays no role in the properties verified here. -/
structure PolicyCorpus where
  kpas : List String
  keywordPacks : List (String × List (String × ℚ))
  tierKeywords : List (String × List String)

/-- The keyword pack registered for a KPA (empty when none is). -/
def packFor (c : PolicyCorpus) (k : String) : List (String × ℚ) :=
  match c.keywordPacks.find? (fun p => p.1 == k) with
  | some p => p.2
  | none => []

/-- First index (in characters) at which `pat` occurs in the remaining
text, counting from `i`. -/
def firstIdxFrom (pat : List Char) : List Char → Nat → Option Nat
  | [], i => if pat.isEmpty then some i else none
  | c :: rest, i =>
    if pat.isPrefixOf (c :: rest) then some i else firstIdxFrom pat rest (i + 1)

/-- Modelled from the spec: the audit snippet of a keyword hit (§4.3) —
roughly ±40 characters of context around the first occurrence of the
keyword in the normalized text. -/
def snippet (ntext kw : String) : String :=
  match firstIdxFrom kw.data ntext.data 0 with
  | none => ""
  | some i => String.mk ((ntext.data.drop (i - 40)).take (kw.length + 80))

/-- The pack entries whose keyword occurs in the normalized text
(case-insensitive substring match; the text is already lowercased by
`normalize`).  Each pack entry is examined once, so multiple occurrences
of the same keyword in the text contribute at most one hit. -/
def matchedEntries (pack : List (String × ℚ)) (ntext : String) :
    List (String × ℚ) :=
  pack.filter (fun p => isInfixB p.1.data ntext.data)

/-- One keyword hit recorded for the audit trail. -/
structure KpaHit where
  keyword : String
  weight : ℚ
  snippet : String

/-- Modelled from the spec: the per-KPA matcher (§4.3) — one hit with a
surrounding snippet for every pack keyword occurring in the text. -/
def matchKpa (pack : List (String × ℚ)) (ntext : String) : List KpaHit :=
  (matchedEntries pack ntext).map (fun p => ⟨p.1, p.2, snippet ntext p.1⟩)

/-- Modelled from the spec:
`match(corpus, normalizedText) -> Map<KpaId, List<hit>>` (§4.3), keyed in
corpus KPA order. -/
def matchCorpus (c : PolicyCorpus) (ntext : String) :
    List (String × List KpaHit) :=
  c.kpas.map (fun k => (k, matchKpa (packFor c k) ntext))

/-- Sum of the matched keyword weights for one KPA. -/
def kpaBaseScore (hits : List KpaHit) : ℚ := (hits.map (fun h => h.weight)).sum

/-- Per-KPA base scores before the cross-KPA bonus (§4.4). -/
def baseScores (m : List (String × List KpaHit)) : List (String × ℚ) :=
  m.map (fun p => (p.1, kpaBaseScore p.2))

/-- The fixed cross-KPA bonus increment (§4.4's illustrative `+0.5`). -/
def crossKpaBonus : ℚ := 1/2

/-- Modelled from the spec: the cross-KPA bonus pass (§4.4) — once the
full set of base scores is known, if more than one KPA scored above the
zero floor, each such KPA receives the additive bonus. -/
def applyBonus (base : List (String × ℚ)) : List (String × ℚ) :=
  if 2 ≤ (base.filter (fun p => decide (0 < p.2))).length then
    base.map (fun p => if 0 < p.2 then (p.1, p.2 + crossKpaBonus) else p)
  else base

/-- Modelled from the spec: `score(matches) -> Map<KpaId, float>` (§4.4). -/
def score (m : List (String × List KpaHit)) : List (String × ℚ) :=
  applyBonus (baseScores m)

/-- Modelled from the spec: `primaryKpa` (§4.4) — argmax over the KPA
scores, ties broken by the lexicographically smallest KPA id, `"none"`
when all scores are zero. -/
def primaryKpa (scores : List (String × ℚ)) : String :=
  if scores.all (fun p => p.2 == 0) then "none"
  else
    match scores with
    | [] => "none"
    | s :: rest =>
      (rest.foldl (fun best cur =>
        if best.2 < cur.2 ∨ (cur.2 = best.2 ∧ cur.1 < best.1) then cur else best) s).1

/-- The score recorded for KPA `k` (zero when absent). -/
def lookupScore (scores : List (String × ℚ)) (k : String) : ℚ :=
  ((scores.find? (fun p => p.1 == k)).map (fun p => p.2)).getD 0

/-- Modelled from the spec: the qualitative band of a scored item (§4.4)
— `"No evidence"` when all scores are zero, otherwise the band of the
primary KPA's score under the ordered thresholds of `specBand`. -/
def scoredBand (scores : List (String × ℚ)) : String :=
  if scores.all (fun p => p.2 == 0) then "No evidence"
  else specBand (lookupScore scores (primaryKpa scores))

/-- The classification result of one evidence item. -/
structure ScoredResult where
  kpaScores : List (String × ℚ)
  primaryKpa : String
  band : String

/-- Modelled from the spec: the full per-item pipeline
`score(match(corpus, normalize(item.rawText)))` together with
`primaryKpa` and `band` (§4.1-§4.4, §8 Determinism). -/
def scorePipeline (c : PolicyCorpus) (rawText : String) : ScoredResult :=
  let s := score (matchCorpus c (VAMP.normalize rawText))
  { kpaScores := s, primaryKpa := primaryKpa s, band := scoredBand s }

/-! ## Evidence aggregator and deduplicator (modelled from the spec) -/

/-- Modelled from the spec: a `ScoredEvidence` record, restricted to the
fields the deduplicator and aggregator read (§3, §4.6). `timeBucket` is
the coarse year-month bucket entering the content hash. -/
structure ScoredEv where
  sourcePlatform : String
  rawText : String
  timeBucket : String
  timestamp : Nat

/-- Modelled from the spec: `computeHash(item)` (§4.6) — a stable hash
over normalized text + sourcePlatform + coarse time bucket.  The
cryptographic SHA-256 is modelled by the tagged concatenation itself:
deduplication depends only on hash equality. -/
def contentHash (e : ScoredEv) : String :=
  VAMP.normalize e.rawText ++ "|" ++ e.sourcePlatform ++ "|" ++ e.timeBucket

/-- Modelled from the spec: the per-(user, year, month)
`EvidenceCollection` (§3) with the duplicate counter (§4.6) and the
finalisation flag (§4.7). -/
structure EvidenceCollection where
  user : String
  year : Nat
  month : Nat
  items : List ScoredEv
  dupCount : Nat
  finalised : Bool

/-- The error raised on writes to a finalised collection (§7). -/
inductive AggregateError where
  | collectionFinalised
deriving DecidableEq

/-- The hashes of the items already in the collection — the
deduplicator's seen-set, scoped to the collection (§4.6). -/
def seenHashes (c : EvidenceCollection) : List String := c.items.map contentHash

/-- Merging one scored item into a collection: a first-seen item is
appended, a duplicate is dropped and counted (§4.6). -/
def aggregateStep (c : EvidenceCollection) (e : ScoredEv) : EvidenceCollection :=
  if contentHash e ∈ seenHashes c then { c with dupCount := c.dupCount + 1 }
  else { c with items := c.items ++ [e] }

/-- Modelled from the spec:
`aggregate(existingCollection, newBatch)` (§4.7) — rejects a finalised
collection with `CollectionFinalisedError`, otherwise merges the batch
through the deduplicator.  (The timestamp ordering of the presented
items is a property of the reading layer, settled separately against
the popup code.) -/
def aggregate (c : EvidenceCollection) (batch : List ScoredEv) :
    Except AggregateError EvidenceCollection :=
  if c.finalised then .error .collectionFinalised
  else .ok (batch.foldl aggregateStep c)

/-- Modelled from the spec: the external finalisation workflow marking a
(user, year, month) collection as locked (§4.7). -/
def finaliseCollection (c : EvidenceCollection) : EvidenceCollection :=
  { c with finalised := true }


/-! ## Helper lemmas -/

theorem truncKeepLast_length_le (limit : Nat) (l : List α) :
    (truncKeepLast limit l).length ≤ limit := by
  unfold truncKeepLast
  split
  · rw [List.length_drop]
    omega
  · omega

theorem truncKeepLast_suffix (limit : Nat) (l : List α) :
    (truncKeepLast limit l).IsSuffix l := by
  unfold truncKeepLast
  split
  · exact List.drop_suffix _ _
  · exact List.suffix_refl l

/-! ## C1 : score classification -/

/-- C1 counterexample: the popup's `getScoreClass` has no boundary at the
spec threshold `1` — the scores `0.5` and `1.5` fall into different
spec bands (`"Emerging"` vs `"Developing"`) yet receive the same CSS
class, so `getScoreClass` does not realise the four-band mapping. -/
theorem getScoreClass_collapses_spec_bands :
    getScoreClass (1/2) = getScoreClass (3/2) ∧ specBand (1/2) ≠ specBand (3/2) := by
  constructor
  · norm_num [getScoreClass]
  · norm_num [specBand]
    simp

/-- C1 (amended): for every non-negative score `s`, `getScoreClass`
classifies by ordered boundary comparison over the thresholds `4` and
`2.5` only, with a separate empty class at `s = 0`: `"score-high"`
exactly when `s ≥ 4`, `"score-medium"` exactly when `2.5 ≤ s < 4`,
`"score-low"` exactly when `0 < s < 2.5`, and `""` exactly when
`s = 0`. -/
theorem getScoreClass_thresholds (s : ℚ) (hs : 0 ≤ s) :
    (getScoreClass s = "score-high" ↔ 4 ≤ s) ∧
    (getScoreClass s = "score-medium" ↔ 5/2 ≤ s ∧ s < 4) ∧
    (getScoreClass s = "score-low" ↔ 0 < s ∧ s < 5/2) ∧
    (getScoreClass s = "" ↔ s = 0) := by
  unfold getScoreClass
  split_ifs with h0 h4 h25 <;>
    refine ⟨?_, ?_, ?_, ?_⟩ <;>
    simp_all <;>
    first
    | linarith
    | exact lt_of_le_of_ne hs (Ne.symm h0)
    | (constructor <;> intro h <;> linarith)
    | (intro h <;> linarith)

/-- C1 witness: the amended characterisation evaluated at `s = 3`. -/
theorem getScoreClass_thresholds_witness : getScoreClass 3 = "score-medium" :=
  ((getScoreClass_thresholds 3 (by norm_num)).2.1).mpr ⟨by norm_num, by norm_num⟩

/-! ## C7 : timestamp confidence -/

/-- C7: the confidence computed by `describeTimestamp` is clamped into
`[0, 1]`, the displayed percentage lies between `0` and `100`, and when
the item carries no finite `timestamp_confidence` the value defaults to
`0.5` for an estimated timestamp and `0.92` for an exact one. -/
theorem describeTimestamp_confidence_clamped (item : TimestampItem) :
    0 ≤ (describeTimestamp item).confidence ∧
    (describeTimestamp item).confidence ≤ 1 ∧
    0 ≤ (describeTimestamp item).confidencePercent ∧
    (describeTimestamp item).confidencePercent ≤ 100 ∧
    (describeTimestamp ⟨none, true⟩).confidence = 1/2 ∧
    (describeTimestamp ⟨none, false⟩).confidence = 92/100 := by
  have h1 : 0 ≤ (describeTimestamp item).confidence := le_max_left _ _
  have h2 : (describeTimestamp item).confidence ≤ 1 :=
    max_le (by norm_num) (min_le_left _ _)
  have hp : (describeTimestamp item).confidencePercent =
      round ((describeTimestamp item).confidence * 100) := rfl
  refine ⟨h1, h2, ?_, ?_, ?_, ?_⟩
  · rw [hp, round_eq]
    apply Int.le_floor.mpr
    push_cast
    linarith
  · rw [hp, round_eq]
    have hfl : (↑⌊(describeTimestamp item).confidence * 100 + 1/2⌋ : ℚ) ≤
        (describeTimestamp item).confidence * 100 + 1/2 := Int.floor_le _
    have hlt : ((describeTimestamp item).confidence * 100 + 1/2 : ℚ) < 101 := by
      linarith
    have h101 : (↑⌊(describeTimestamp item).confidence * 100 + 1/2⌋ : ℚ) < 101 :=
      lt_of_le_of_lt hfl hlt
    have h101i : ⌊(describeTimestamp item).confidence * 100 + 1/2⌋ < 101 := by
      exact_mod_cast h101
    omega
  · show max 0 (min 1 (1/2 : ℚ)) = 1/2
    norm_num
  · show max 0 (min 1 (92/100 : ℚ)) = 92/100
    norm_num

/-! ## C10 : average score -/

/-- C10: `calculateAverageScore` yields `'N/A'` (here `none`) exactly
when no item has a truthy score; otherwise it yields the arithmetic mean
of the truthy scores; appending an item whose score is missing or zero
changes neither the sum nor the count of the average. -/
theorem calculateAverageScore_spec (evidence : List EvidenceRow) :
    (calculateAverageScore evidence = none ↔
      ∀ item ∈ evidence, truthyScore item.score = false) ∧
    (truthyScores evidence ≠ [] →
      calculateAverageScore evidence =
        some ((truthyScores evidence).sum / ((truthyScores evidence).length : ℚ))) ∧
    (∀ i : EvidenceRow, truthyScore i.score = false →
      calculateAverageScore (evidence ++ [i]) = calculateAverageScore evidence) := by
  refine ⟨?_, ?_, ?_⟩
  · have hiff : calculateAverageScore evidence = none ↔
        (truthyScores evidence).length = 0 := by
      unfold calculateAverageScore
      split
      · simp [*]
      · simp [*]
    rw [hiff, List.length_eq_zero]
    unfold truthyScores
    rw [List.map_eq_nil_iff]
    simp [List.filter_eq_nil_iff]
  · intro hne
    unfold calculateAverageScore
    split
    · exact absurd (List.length_eq_zero.mp (by assumption)) hne
    · rfl
  · intro i hi
    have hsame : truthyScores (evidence ++ [i]) = truthyScores evidence := by
      unfold truthyScores
      rw [List.filter_append]
      simp [List.filter_cons, hi]
    unfold calculateAverageScore
    rw [hsame]

/-- C10 witness: scores `[2, 0, 4]` with one missing score average to
`3` — the zero and the missing score are excluded. -/
theorem calculateAverageScore_spec_witness :
    calculateAverageScore
      [⟨"a", none, none, none, some 2, "s", none⟩,
       ⟨"b", none, none, none, some 0, "s", none⟩,
       ⟨"c", none, none, none, none, "s", none⟩,
       ⟨"d", none, none, none, some 4, "s", none⟩] = some 3 := by
  have h := (calculateAverageScore_spec
    [⟨"a", none, none, none, some 2, "s", none⟩,
     ⟨"b", none, none, none, some 0, "s", none⟩,
     ⟨"c", none, none, none, none, "s", none⟩,
     ⟨"d", none, none, none, some 4, "s", none⟩]).2.1
    (by norm_num [truthyScores, truthyScore, List.filter_cons, List.filter_nil]; simp)
  rw [h]
  norm_num [truthyScores, truthyScore, List.filter_cons, List.filter_nil]

/-! ## C9 : bounded popup histories -/

/-- C9: the popup's histories are bounded and retain only the newest
entries — after every `addChatMessage` the chat history holds at most 40
entries, after every `recordAskMessage` the ask conversation holds at
most 20, after every `recordToolFeedback` the tool-event list holds at
most 30, and in each case the resulting list is a suffix of the pushed
list, so it is the oldest entries that are dropped. -/
theorem popup_histories_bounded
    (entries : List ChatEntry) (role content context : String) (now : Nat)
    (conv : List AskMessage) (r c : String)
    (events : List ToolEvent) (tools : List (Option ToolInput))
    (origin : String) (now2 : Nat) :
    (entries.length ≤ 40 →
      (addChatMessage entries role content context now).length ≤ 40) ∧
    (content ≠ "" →
      (addChatMessage entries role content context now).IsSuffix
        (entries ++ [mkChatEntry role content context now])) ∧
    (conv.length ≤ 20 → (recordAskMessage conv r c).length ≤ 20) ∧
    (c ≠ "" → (r = "user" ∨ r = "assistant") →
      (recordAskMessage conv r c).IsSuffix (conv ++ [⟨r, c⟩])) ∧
    (events.length ≤ 30 →
      (recordToolFeedback events tools origin now2).length ≤ 30) ∧
    (recordToolFeedback events tools origin now2).IsSuffix
      (events ++ tools.filterMap (fun t => t.map (mkToolEntry origin now2))) := by
  refine ⟨?_, ?_, ?_, ?_, ?_, ?_⟩
  · intro hlen
    unfold addChatMessage
    split
    · exact hlen
    · exact truncKeepLast_length_le _ _
  · intro hc
    unfold addChatMessage
    rw [if_neg hc]
    exact truncKeepLast_suffix _ _
  · intro hlen
    unfold recordAskMessage
    split
    · exact hlen
    · split
      · exact truncKeepLast_length_le _ _
      · exact hlen
  · intro hc hr
    unfold recordAskMessage
    rw [if_neg hc, if_pos hr]
    exact truncKeepLast_suffix _ _
  · intro hlen
    unfold recordToolFeedback
    split
    · exact hlen
    · exact truncKeepLast_length_le _ _
  · unfold recordToolFeedback
    split
    · rename_i hemp
      rw [List.isEmpty_iff.mp hemp]
      simp
    · exact truncKeepLast_suffix _ _

/-- C9 witness: the bounds and suffix property evaluated at full
histories. -/
theorem popup_histories_bounded_witness :
    (addChatMessage (List.replicate 40 (mkChatEntry "user" "x" "ask" 0))
      "user" "hi" "ask" 1).length ≤ 40 ∧
    (recordAskMessage (List.replicate 20 ⟨"user", "x"⟩) "assistant" "y").length ≤ 20 ∧
    (recordToolFeedback (List.replicate 30
        (mkToolEntry "ASK" 0 ⟨none, none, none, none, none, none, none, none, none, none⟩))
      [some ⟨none, none, none, none, none, none, none, none, none, none⟩]
      "ASK" 2).length ≤ 30 := by
  obtain ⟨hA, _, hC, _, hE, _⟩ := popup_histories_bounded
    (List.replicate 40 (mkChatEntry "user" "x" "ask" 0)) "user" "hi" "ask" 1
    (List.replicate 20 ⟨"user", "x"⟩) "assistant" "y"
    (List.replicate 30
      (mkToolEntry "ASK" 0 ⟨none, none, none, none, none, none, none, none, none, none⟩))
    [some ⟨none, none, none, none, none, none, none, none, none, none⟩] "ASK" 2
  exact ⟨hA (by simp), hC (by simp), hE (by simp)⟩

/-! ## C2 : ordering of the presented evidence list -/

/-- C2 counterexample: a year document whose single month holds an item
titled `"b"` with timestamp `1` followed by an item titled `"a"` with
timestamp `2`.  `extractEvidenceFromYearDoc` performs no sorting, and
the popup presents the list sorted by the initial
`currentSort = { column: 'title', direction: 'asc' }` — the presented
timestamps are `[2, 1]`, which is not ordered by timestamp. -/
theorem presented_evidence_not_timestamp_sorted :
    ((sortEvidence (extractEvidenceFromYearDoc
        ⟨some [("1", some [⟨"b", some 1, none, none, none, "s", none⟩,
                           ⟨"a", some 2, none, none, none, "s", none⟩])]⟩)
      "title" "asc").map effectiveDate = [2, 1]) ∧
    ¬ List.Sorted (· ≤ ·) [2, 1] := by
  constructor
  · rfl
  · decide

/-- C2 (amended): `extractEvidenceFromYearDoc` concatenates the months'
items without sorting, and the popup presents them ordered by the active
sort column (initially the title, ascending), not by timestamp; only
when the `date` column is the active sort is the presented list a
permutation of the evidence ordered by the items' effective
timestamps. -/
theorem sortEvidence_date_sorts_by_timestamp (evidence : List EvidenceRow) :
    List.Sorted (fun a b => effectiveDate a ≤ effectiveDate b)
      (sortEvidence evidence "date" "asc") ∧
    (sortEvidence evidence "date" "asc").Perm evidence := by
  have hcol : ∀ a b : EvidenceRow,
      (colLE "date" a b = true) = (effectiveDate a ≤ effectiveDate b) := by
    intro a b
    simp [colLE]
  haveI htot : IsTotal EvidenceRow (fun a b => colLE "date" a b = true) := by
    constructor
    intro a b
    rw [hcol, hcol]
    exact le_total _ _
  haveI htrans : IsTrans EvidenceRow (fun a b => colLE "date" a b = true) := by
    constructor
    intro a b c hab hbc
    rw [hcol] at *
    omega
  have hsort : sortEvidence evidence "date" "asc" =
      evidence.insertionSort (fun a b => colLE "date" a b = true) := by
    unfold sortEvidence
    rw [if_pos rfl]
  constructor
  · rw [hsort]
    exact (List.sorted_insertionSort _ evidence).imp (fun hab => by rwa [hcol] at hab)
  · rw [hsort]
    exact List.perm_insertionSort _ evidence

/-! ## C8 : content-script scraper bounds -/

theorem cappedPush_length_le {arr : List α} {cap : Nat} (x : α)
    (h : arr.length ≤ cap) : (cappedPush arr x cap).length ≤ cap := by
  unfold cappedPush
  split
  · rw [List.length_append]
    simpa using by omega
  · exact h

theorem scrapeOutlookRows_length_le (rows : List OutlookRow) :
    ∀ out seen, out.length ≤ outlookMaxItems →
      (scrapeOutlookRows rows (out, seen)).1.length ≤ outlookMaxItems := by
  induction rows with
  | nil => intro out seen h; exact h
  | cons row rest ih =>
    intro out seen h
    unfold scrapeOutlookRows
    split
    · split
      · exact ih _ _ h
      · exact ih _ _ (cappedPush_length_le _ h)
    · exact ih _ _ h

theorem scrapeOutlook_foldl_length_le (sels : List (List OutlookRow)) :
    ∀ st : List ScrapedItem × List String, st.1.length ≤ outlookMaxItems →
      (sels.foldl (fun st rows => scrapeOutlookRows rows st) st).1.length ≤
        outlookMaxItems := by
  induction sels with
  | nil => intro st h; exact h
  | cons rows rest ih =>
    intro st h
    rw [List.foldl_cons]
    exact ih _ (by
      obtain ⟨out, seen⟩ := st
      exact scrapeOutlookRows_length_le rows out seen h)

theorem scrapeListRows_length_le (source : String) (cap : Nat) (rows : List String) :
    ∀ out, out.length ≤ cap → (scrapeListRows source cap rows out).length ≤ cap := by
  induction rows with
  | nil => intro out h; exact h
  | cons txt rest ih =>
    intro out h
    unfold scrapeListRows
    split
    · exact ih _ h
    · split
      · exact ih _ h
      · exact ih _ (cappedPush_length_le _ h)

theorem scrapeEFundiRows_length_le (rows : List String) :
    ∀ out, out.length ≤ 300 → (scrapeEFundiRows rows out).length ≤ 300 := by
  induction rows with
  | nil => intro out h; exact h
  | cons txt rest ih =>
    intro out h
    unfold scrapeEFundiRows
    split
    · exact ih _ h
    · split
      · exact ih _ h
      · exact ih _ (cappedPush_length_le _ h)

theorem scrapeEFundi_foldl_length_le (sels : List (List String)) :
    ∀ out : List ScrapedItem, out.length ≤ 300 →
      (sels.foldl (fun out rows => scrapeEFundiRows rows out) out).length ≤ 300 := by
  induction sels with
  | nil => intro out h; exact h
  | cons rows rest ih =>
    intro out h
    rw [List.foldl_cons]
    exact ih _ (scrapeEFundiRows_length_le rows out h)

set_option maxRecDepth 100000 in
set_option maxHeartbeats 4000000 in
/-- C8 counterexample: an Outlook page whose message list yields 201
distinct subjects produces 201 preview items — the Outlook scraper's cap
is `MAX_ITEMS = 500`, not 200. -/
theorem routeScrape_outlook_exceeds_200 :
    200 < (routeScrape
      { host := "outlook.office.com"
        outlookSelRows := [(List.range 201).map (fun n =>
          { subjectText := some (String.mk
              [Char.ofNat (65 + n / 26), Char.ofNat (65 + n % 26), 'x', 'x'])
            ariaLabel := none
            rowText := ""
            dataConvid := none
            dataItemId := none
            dataConversationId := none
            dataConversationid := none
            hasAttachment := false })]
        onedriveRows := []
        driveRows := []
        efundiSelRows := [] }).length := by
  decide

/-- C8 (amended): `routeScrape` is total over the abstract page state; it
returns the empty list for every host matching none of the four host
patterns, and the returned item list is capped at `MAX_ITEMS = 500` for
Outlook pages, 200 for OneDrive and Google Drive pages, and 300 for
eFundi pages — so every result has at most 500 items. -/
theorem routeScrape_bounded (page : PageState) :
    (isOutlookHost page.host = false → isOneDriveHost page.host = false →
      isDriveHost page.host = false → isEFundiHost page.host = false →
      routeScrape page = []) ∧
    (scrapeOutlook page).length ≤ 500 ∧
    (scrapeOneDrive page).length ≤ 200 ∧
    (scrapeDrive page).length ≤ 200 ∧
    (scrapeEFundi page).length ≤ 300 ∧
    (routeScrape page).length ≤ 500 := by
  have hout : (scrapeOutlook page).length ≤ 500 :=
    scrapeOutlook_foldl_length_le _ ([], []) (by simp)
  have h1d : (scrapeOneDrive page).length ≤ 200 :=
    scrapeListRows_length_le _ _ _ [] (by simp)
  have hgd : (scrapeDrive page).length ≤ 200 :=
    scrapeListRows_length_le _ _ _ [] (by simp)
  have hef : (scrapeEFundi page).length ≤ 300 :=
    scrapeEFundi_foldl_length_le _ [] (by simp)
  refine ⟨?_, hout, h1d, hgd, hef, ?_⟩
  · intro h1 h2 h3 h4
    unfold routeScrape
    simp [h1, h2, h3, h4]
  · unfold routeScrape
    split
    · exact hout
    · split
      · omega
      · split
        · omega
        · split
          · omega
          · simp

/-- C8 witness: a host matching none of the patterns yields no items. -/
theorem routeScrape_bounded_witness :
    routeScrape
      { host := "example.com", outlookSelRows := [["x"]].map (fun _ => [])
        onedriveRows := ["row"], driveRows := ["row"], efundiSelRows := [["row"]] } = [] := by
  exact (routeScrape_bounded _).1 rfl rfl rfl rfl

/-! ## C3, C6 : finalisation lock and idempotent aggregation -/

theorem aggregateStep_finalised (c : EvidenceCollection) (e : ScoredEv) :
    (aggregateStep c e).finalised = c.finalised := by
  unfold aggregateStep
  split <;> rfl

theorem foldl_aggregateStep_finalised (batch : List ScoredEv) :
    ∀ c : EvidenceCollection, (batch.foldl aggregateStep c).finalised = c.finalised := by
  induction batch with
  | nil => intro c; rfl
  | cons b bs ih =>
    intro c
    rw [List.foldl_cons, ih, aggregateStep_finalised]

theorem aggregateStep_hash_mem (c : EvidenceCollection) (e : ScoredEv) :
    contentHash e ∈ seenHashes (aggregateStep c e) := by
  unfold aggregateStep
  split
  · assumption
  · unfold seenHashes
    simp

theorem aggregateStep_hash_mono (c : EvidenceCollection) (e : ScoredEv)
    (h : String) (hmem : h ∈ seenHashes c) : h ∈ seenHashes (aggregateStep c e) := by
  unfold aggregateStep
  split
  · exact hmem
  · unfold seenHashes at *
    simp at *
    exact Or.inl hmem

theorem foldl_aggregateStep_hash_mono (batch : List ScoredEv) :
    ∀ (c : EvidenceCollection) (h : String), h ∈ seenHashes c →
      h ∈ seenHashes (batch.foldl aggregateStep c) := by
  induction batch with
  | nil => intro c h hmem; exact hmem
  | cons b bs ih =>
    intro c h hmem
    rw [List.foldl_cons]
    exact ih _ _ (aggregateStep_hash_mono c b h hmem)

theorem foldl_aggregateStep_hash_mem (batch : List ScoredEv) :
    ∀ (c : EvidenceCollection), ∀ e ∈ batch,
      contentHash e ∈ seenHashes (batch.foldl aggregateStep c) := by
  induction batch with
  | nil => intro c e he; cases he
  | cons b bs ih =>
    intro c e he
    rw [List.foldl_cons]
    rcases List.mem_cons.mp he with heq | hmem
    · subst heq
      exact foldl_aggregateStep_hash_mono bs _ _ (aggregateStep_hash_mem c e)
    · exact ih _ _ hmem

theorem foldl_aggregateStep_all_dups (batch : List ScoredEv) :
    ∀ c : EvidenceCollection, (∀ e ∈ batch, contentHash e ∈ seenHashes c) →
      batch.foldl aggregateStep c = { c with dupCount := c.dupCount + batch.length } := by
  induction batch with
  | nil => intro c _; simp
  | cons b bs ih =>
    intro c h
    rw [List.foldl_cons]
    have hb : contentHash b ∈ seenHashes c := h b (List.mem_cons_self b bs)
    have hstep : aggregateStep c b = { c with dupCount := c.dupCount + 1 } := by
      unfold aggregateStep
      rw [if_pos hb]
    rw [hstep]
    have hseen : seenHashes { c with dupCount := c.dupCount + 1 } = seenHashes c := rfl
    rw [ih _ (fun e he => by rw [hseen]; exact h e (List.mem_cons_of_mem _ he))]
    simp [List.length_cons]
    omega

/-- C3: aggregating into a finalised (user, year, month) collection fails
with `CollectionFinalisedError`, and finalisation itself leaves the item
list untouched — so the collection's items are identical before and
after the rejected call. -/
theorem aggregate_rejects_finalised (c : EvidenceCollection) (batch : List ScoredEv) :
    aggregate (finaliseCollection c) batch =
      Except.error AggregateError.collectionFinalised ∧
    (finaliseCollection c).items = c.items := by
  constructor
  · unfold aggregate finaliseCollection
    simp
  · rfl

/-- C6: aggregation is idempotent — feeding the same batch twice into a
non-finalised collection succeeds both times, the second pass leaves the
item set exactly as after the first, and only the duplicate counter
grows (by the batch length). -/
theorem aggregate_idempotent (c : EvidenceCollection) (batch : List ScoredEv)
    (hfin : c.finalised = false) :
    ∃ c1 c2, aggregate c batch = Except.ok c1 ∧
      aggregate c1 batch = Except.ok c2 ∧
      c2.items = c1.items ∧
      c2.dupCount = c1.dupCount + batch.length := by
  have h1 : aggregate c batch = Except.ok (batch.foldl aggregateStep c) := by
    unfold aggregate
    rw [if_neg (by rw [hfin]; exact Bool.false_ne_true)]
  have hfin1 : (batch.foldl aggregateStep c).finalised = false := by
    rw [foldl_aggregateStep_finalised]
    exact hfin
  have h2 : aggregate (batch.foldl aggregateStep c) batch =
      Except.ok (batch.foldl aggregateStep (batch.foldl aggregateStep c)) := by
    unfold aggregate
    rw [if_neg (by rw [hfin1]; exact Bool.false_ne_true)]
  have hdup : batch.foldl aggregateStep (batch.foldl aggregateStep c) =
      { batch.foldl aggregateStep c with
        dupCount := (batch.foldl aggregateStep c).dupCount + batch.length } :=
    foldl_aggregateStep_all_dups batch _
      (fun e he => foldl_aggregateStep_hash_mem batch c e he)
  refine ⟨batch.foldl aggregateStep c,
          batch.foldl aggregateStep (batch.foldl aggregateStep c),
          h1, h2, ?_, ?_⟩
  · rw [hdup]
  · rw [hdup]

/-- C6 witness: a batch with an internal duplicate aggregated twice into
an empty collection. -/
theorem aggregate_idempotent_witness :
    ∃ c1 c2,
      aggregate ⟨"u", 2025, 11, [], 0, false⟩
        [⟨"outlook", "text a", "2025-11", 5⟩, ⟨"outlook", "text a", "2025-11", 9⟩] =
          Except.ok c1 ∧
      aggregate c1
        [⟨"outlook", "text a", "2025-11", 5⟩, ⟨"outlook", "text a", "2025-11", 9⟩] =
          Except.ok c2 ∧
      c2.items = c1.items ∧
      c2.dupCount = c1.dupCount + 2 :=
  aggregate_idempotent ⟨"u", 2025, 11, [], 0, false⟩
    [⟨"outlook", "text a", "2025-11", 5⟩, ⟨"outlook", "text a", "2025-11", 9⟩] rfl

/-! ## C4, C5 : matcher/scorer algebra -/

theorem kpaBaseScore_matchKpa (pack : List (String × ℚ)) (ntext : String) :
    kpaBaseScore (matchKpa pack ntext) =
      ((matchedEntries pack ntext).map (fun p => p.2)).sum := by
  unfold kpaBaseScore matchKpa
  rw [List.map_map]
  rfl

theorem scorePipeline_kpaScores (c : PolicyCorpus) (raw : String) :
    (scorePipeline c raw).kpaScores = score (matchCorpus c (VAMP.normalize raw)) := rfl

/-- C4: per-KPA scores depend only on which corpus keywords occur in the
normalized text, never on how often — two texts in which every keyword
of the corpus occurs in one exactly when it occurs in the other (in
particular, one repeating a keyword N > 1 times and one containing it
once, all else equal) receive identical per-KPA scores. -/
theorem repeated_keywords_count_once (c : PolicyCorpus) (t1 t2 : String)
    (h : ∀ k ∈ c.kpas, ∀ p ∈ packFor c k,
      isInfixB p.1.data (VAMP.normalize t1).data =
        isInfixB p.1.data (VAMP.normalize t2).data) :
    (scorePipeline c t1).kpaScores = (scorePipeline c t2).kpaScores := by
  rw [scorePipeline_kpaScores, scorePipeline_kpaScores]
  unfold score
  congr 1
  unfold baseScores matchCorpus
  rw [List.map_map, List.map_map]
  apply List.map_congr_left
  intro k hk
  simp only [Function.comp]
  congr 1
  rw [kpaBaseScore_matchKpa, kpaBaseScore_matchKpa]
  unfold matchedEntries
  rw [List.filter_congr (fun p hp => h k hk p hp)]

/-- C4 witness: a text containing the keyword once and a text repeating
it three times score identically. -/
theorem repeated_keywords_count_once_witness :
    (scorePipeline ⟨["KPA1"], [("KPA1", [("grant", 1)])], []⟩ "grant").kpaScores =
      (scorePipeline ⟨["KPA1"], [("KPA1", [("grant", 1)])], []⟩
        "grant grant grant").kpaScores :=
  repeated_keywords_count_once _ _ _ (by decide)

/-- C5: the scoring pipeline is a deterministic pure function of the
(corpus, text) pair — evaluating it twice yields identical `kpaScores`,
`primaryKpa` and `band` — and it is independent of evaluation order: a
corpus whose keyword packs are permutations of another's produces the
identical result. -/
theorem scoring_deterministic (c d : PolicyCorpus) (raw : String)
    (hk : d.kpas = c.kpas)
    (hp : ∀ k, (packFor d k).Perm (packFor c k)) :
    (scorePipeline c raw).kpaScores = (scorePipeline c raw).kpaScores ∧
    (scorePipeline c raw).primaryKpa = (scorePipeline c raw).primaryKpa ∧
    (scorePipeline c raw).band = (scorePipeline c raw).band ∧
    scorePipeline d raw = scorePipeline c raw := by
  refine ⟨rfl, rfl, rfl, ?_⟩
  have hbase : baseScores (matchCorpus d (VAMP.normalize raw)) =
      baseScores (matchCorpus c (VAMP.normalize raw)) := by
    unfold baseScores matchCorpus
    rw [List.map_map, List.map_map, hk]
    apply List.map_congr_left
    intro k _
    simp only [Function.comp]
    congr 1
    rw [kpaBaseScore_matchKpa, kpaBaseScore_matchKpa]
    exact (((hp k).filter _).map _).sum_eq
  have hscore : score (matchCorpus d (VAMP.normalize raw)) =
      score (matchCorpus c (VAMP.normalize raw)) := by
    unfold score
    rw [hbase]
  unfold scorePipeline
  rw [hscore]

/-- C5 witness: a corpus with its KPA1 pack reversed scores every text
identically to the original corpus. -/
theorem scoring_deterministic_witness :
    scorePipeline ⟨["KPA1"], [("KPA1", [("beta", 2), ("alpha", 1)])], []⟩
        "alpha and beta" =
      scorePipeline ⟨["KPA1"], [("KPA1", [("alpha", 1), ("beta", 2)])], []⟩
        "alpha and beta" :=
  (scoring_deterministic
    ⟨["KPA1"], [("KPA1", [("alpha", 1), ("beta", 2)])], []⟩
    ⟨["KPA1"], [("KPA1", [("beta", 2), ("alpha", 1)])], []⟩
    "alpha and beta" rfl (fun k => by
    by_cases hk : ("KPA1" : String) = k
    · subst hk
      have h1 : packFor ⟨["KPA1"], [("KPA1", [("beta", 2), ("alpha", 1)])], []⟩
          "KPA1" = [("beta", 2), ("alpha", 1)] := rfl
      have h2 : packFor ⟨["KPA1"], [("KPA1", [("alpha", 1), ("beta", 2)])], []⟩
          "KPA1" = [("alpha", 1), ("beta", 2)] := rfl
      rw [h1, h2]
      exact List.Perm.swap _ _ _
    · have h1 : packFor ⟨["KPA1"], [("KPA1", [("beta", 2), ("alpha", 1)])], []⟩ k = [] := by
        unfold packFor
        have hbeq : (("KPA1" : String) == k) = false := by
          simp [hk]
        simp [List.find?, hbeq]
      have h2 : packFor ⟨["KPA1"], [("KPA1", [("alpha", 1), ("beta", 2)])], []⟩ k = [] := by
        unfold packFor
        have hbeq : (("KPA1" : String) == k) = false := by
          simp [hk]
        simp [List.find?, hbeq]
      rw [h1, h2])).2.2.2
